import Mathlib

/-
Verification development for the AccessAI assistive-technology client.

The definitions below are a shallow embedding of the core logic in
src/components/VisualAssistant.tsx (which also carries the HearingAssistant
audio pipeline and the Creative studio after document separators):
  * KalmanFilter          -- the scalar smoothing filter (lines 12-25)
  * retryGo / retryTask   -- the resilient call wrapper (lines 30-42)
  * rawMotionScore        -- the motion scorer inside checkMotion (lines 195-216)
  * stepTick / stabProcess -- the capture stabilizer loop (lines 195-243)
  * scheduleChunk / scheduleRun / handleInterrupt -- the playback scheduler
    of the live audio session (lines 600-628)
  * turnComplete          -- the turn accumulator (lines 630-640)
  * analyzeDisplay        -- fallback labelling in captureAndAnalyze (lines 246-293)
JavaScript numbers are modelled as rationals, timestamps as natural-number
milliseconds, pixel buffers as functions from byte index to byte value, and
promise rejection as Except / explicit outcome values.
-/

namespace AccessAI

/-! ## Scalar smoothing filter (KalmanFilter, VisualAssistant.tsx lines 12-25) -/

/-- Persistent filter state: estimate x and covariance p.  In the source both
start at x = 0, p = 1 and the filter is re-instantiated per attempt. -/
structure KalmanFilter where
  x : ℚ
  p : ℚ
deriving DecidableEq

/-- Initial state of a freshly constructed filter (x = 0, p = 1). -/
def KalmanFilter.init : KalmanFilter := ⟨0, 1⟩

/-- Fixed process noise q = 0.1. -/
def KalmanFilter.q : ℚ := 1/10

/-- Fixed measurement noise r = 0.5. -/
def KalmanFilter.r : ℚ := 1/2

/-- One call of filter(measurement): returns the updated state and the value
returned to the caller (the updated estimate x). -/
def KalmanFilter.filter (s : KalmanFilter) (measurement : ℚ) : KalmanFilter × ℚ :=
  let p := s.p + KalmanFilter.q
  let k := p / (p + KalmanFilter.r)
  let x := s.x + k * (measurement - s.x)
  let p2 := (1 - k) * p
  (⟨x, p2⟩, x)

/-! ## Resilient call wrapper (retryTask, VisualAssistant.tsx lines 30-42) -/

/-- Result of a retryTask run: a value returned by the task, an error
rethrown after the budget is exhausted, or the fabricated trailing
"Unexpected retry failure" throw after the while loop.  Each constructor
records the number of task invocations performed. -/
inductive RetryResult (E A : Type) where
  | ok (value : A) (calls : ℕ)
  | err (error : E) (calls : ℕ)
  | unexpected (calls : ℕ)
deriving DecidableEq

/-- The while loop of retryTask.  The i-th invocation of the task is modelled
by task i : Except E A (the task either resolves or rejects deterministically
per invocation index).  attempt is the loop counter. -/
def retryGo {E A : Type} (task : ℕ → Except E A) (maxRetries : ℕ) (attempt : ℕ) :
    RetryResult E A :=
  if _h1 : attempt ≤ maxRetries then
    match task attempt with
    | Except.ok a => RetryResult.ok a (attempt + 1)
    | Except.error e =>
      if h2 : attempt = maxRetries then RetryResult.err e (attempt + 1)
      else retryGo task maxRetries (attempt + 1)
  else RetryResult.unexpected attempt
termination_by maxRetries + 1 - attempt
decreasing_by omega

/-- retryTask starts the loop at attempt = 0. -/
def retryTask {E A : Type} (task : ℕ → Except E A) (maxRetries : ℕ) : RetryResult E A :=
  retryGo task maxRetries 0

/-- Default retry budget of retryTask (maxRetries = 2, i.e. 3 total attempts). -/
def retryTaskDefaultMaxRetries : ℕ := 2

/-- Default fixed inter-attempt delay of retryTask in milliseconds. -/
def retryTaskDefaultDelay : ℕ := 1000

/-! ## Motion scorer and capture stabilizer (checkMotion / getStabilizedFrame,
VisualAssistant.tsx lines 183-244) -/

/-- mSize = 64: side length of the downsampled motion canvas. -/
def mSize : ℕ := 64

/-- gridSize = 4: the coarse comparison grid is 4 by 4 blocks. -/
def gridSize : ℕ := 4

/-- blockSize = mSize / gridSize = 16. -/
def blockSize : ℕ := mSize / gridSize

/-- STABILITY_THRESHOLD = 18000 used to derive the stability percentage. -/
def STABILITY_THRESHOLD : ℚ := 18000

/-- MAX_DURATION = 3000 ms: the maximum stabilization attempt duration. -/
def MAX_DURATION : ℕ := 3000

/-- SAMPLE_RATE = 80 ms between scheduled motion ticks. -/
def SAMPLE_RATE : ℕ := 80

/-- Per-block absolute-difference sum of checkMotion: the loops
for (y = 0; y < blockSize; y += 2) and for (x = 0; x < blockSize; x += 2)
are written as 2 * yh, 2 * xh over range (blockSize / 2); idx is the byte
index into the RGBA pixel buffer exactly as in the source. -/
def blockDiff (currData prevData : ℕ → ℕ) (gy gx : ℕ) : ℕ :=
  ((List.range (blockSize / 2)).map (fun yh =>
    ((List.range (blockSize / 2)).map (fun xh =>
      ((currData (((gy * blockSize + 2 * yh) * mSize + (gx * blockSize + 2 * xh)) * 4) : ℤ) -
        (prevData (((gy * blockSize + 2 * yh) * mSize + (gx * blockSize + 2 * xh)) * 4) : ℤ)).natAbs)).sum)).sum

/-- rawMotionScore of one tick: 0 when prevData is null (first sample),
otherwise the sum of blockDiff over the 4 by 4 grid. -/
def rawMotionScore (prevData : Option (ℕ → ℕ)) (currData : ℕ → ℕ) : ℕ :=
  match prevData with
  | none => 0
  | some p =>
    ((List.range gridSize).map (fun gy =>
      ((List.range gridSize).map (fun gx => blockDiff currData p gy gx)).sum)).sum

/-- currentStability = max(0, min(100, 100 - filteredMotion / 18000 * 100)). -/
def stabilityOf (filteredMotion : ℚ) : ℚ :=
  max 0 (min 100 (100 - filteredMotion / STABILITY_THRESHOLD * 100))

/-- One motion tick as seen by checkMotion: elapsed time (Date.now() minus
startTime, in ms), the downsampled motion-canvas pixel data, and the
full-resolution encoded frame produced by toDataURL. -/
structure Tick where
  time : ℕ
  frame : ℕ → ℕ
  full : String

/-- Mutable state of one stabilization attempt: the filter, prevData,
bestFrame (initially the empty string) and minFilteredMotion (none models
the initial Infinity). -/
structure StabState where
  kf : KalmanFilter
  prevData : Option (ℕ → ℕ)
  bestFrame : String
  minFilteredMotion : Option ℚ

/-- State at the start of an attempt. -/
def stabInit : StabState := ⟨KalmanFilter.init, none, "", none⟩

/-- The body of one checkMotion tick, up to but excluding the termination
test: score the motion, run the filter, derive the stability, and record the
frame as bestFrame whenever filteredMotion < minFilteredMotion or bestFrame
is still empty.  Returns the updated state and the stability value. -/
def stepTick (s : StabState) (t : Tick) : StabState × ℚ :=
  let filtered := (s.kf.filter ((rawMotionScore s.prevData t.frame : ℕ) : ℚ)).2
  let kf2 := (s.kf.filter ((rawMotionScore s.prevData t.frame : ℕ) : ℚ)).1
  let improved : Bool :=
    (match s.minFilteredMotion with
     | none => true
     | some m => decide (filtered < m)) || (s.bestFrame == "")
  (⟨kf2, some t.frame,
    if improved then t.full else s.bestFrame,
    if improved then some filtered else s.minFilteredMotion⟩,
   stabilityOf filtered)

/-- How a stabilization attempt ended: the locked branch
(currentStability > 95 and timeElapsed > 400) or the timeout branch
(timeElapsed >= MAX_DURATION).  In the source both resolve with bestFrame. -/
inductive Outcome where
  | locked
  | timeout
deriving DecidableEq

/-- The checkMotion loop over a list of ticks.  Returns the trace of
(time, stability) pairs of the processed ticks together with the resolution,
if any: the outcome, the resolved bestFrame, and the elapsed time of the
terminating tick.  none models an attempt whose tick list ran out before a
termination condition fired (real time always reaches MAX_DURATION). -/
def stabProcess (s : StabState) : List Tick → List (ℕ × ℚ) × Option (Outcome × String × ℕ)
  | [] => ([], none)
  | t :: rest =>
    if 95 < (stepTick s t).2 ∧ 400 < t.time then
      ([(t.time, (stepTick s t).2)], some (Outcome.locked, (stepTick s t).1.bestFrame, t.time))
    else if MAX_DURATION ≤ t.time then
      ([(t.time, (stepTick s t).2)], some (Outcome.timeout, (stepTick s t).1.bestFrame, t.time))
    else
      ((t.time, (stepTick s t).2) :: (stabProcess (stepTick s t).1 rest).1,
       (stabProcess (stepTick s t).1 rest).2)

/-- Start time of the current maximal streak of ticks with stability above
the 95 threshold, folded over a (time, stability) trace: reset to none when
a tick is at or below the threshold, retained otherwise.  Used to state the
continuous-dwell reading of the lock condition. -/
def streakStartAux (cur : Option ℕ) : List (ℕ × ℚ) → Option ℕ
  | [] => cur
  | e :: rest => streakStartAux (if 95 < e.2 then some (cur.getD e.1) else none) rest

/-- All-zero 64x64 pixel buffer. -/
def bufZero : ℕ → ℕ := fun _ => 0

/-- Constant-2 pixel buffer; against bufZero it yields a raw motion score of
1024 * 2 = 2048 (16 blocks of 64 sampled pixels each). -/
def bufTwo : ℕ → ℕ := fun _ => 2

/-- Concrete attempt: a still first tick, a burst of motion at 200 ms, and a
still tick at 480 ms.  Stability is 100, then about 94.65 (below 95), then
about 96.8 (above 95), so the attempt locks at 480 ms with the above-95
streak having begun at that very tick. -/
def exTicks : List Tick :=
  [⟨0, bufZero, "f1"⟩, ⟨200, bufTwo, "f2"⟩, ⟨480, bufTwo, "f3"⟩]

/-- Evaluation of the first tick of exTicks. -/
theorem stepTick_ex1 : stepTick stabInit ⟨0, bufZero, "f1"⟩ =
    (⟨⟨0, 11/32⟩, some bufZero, "f1", some 0⟩, 100) := by
  have hr1 : rawMotionScore none bufZero = 0 := rfl
  simp only [stepTick, stabInit, KalmanFilter.init, KalmanFilter.filter, KalmanFilter.q,
    KalmanFilter.r, stabilityOf, STABILITY_THRESHOLD, hr1]
  norm_num [min_def, max_def]

/-- Evaluation of the second tick of exTicks: a raw score of 2048 pushes the
filtered motion to 145408/151 and the stability to 643148/6795, just below 95. -/
theorem stepTick_ex2 : stepTick ⟨⟨0, 11/32⟩, some bufZero, "f1", some 0⟩ ⟨200, bufTwo, "f2"⟩ =
    (⟨⟨145408/151, 71/302⟩, some bufTwo, "f1", some 0⟩, 643148/6795) := by
  have hr2 : rawMotionScore (some bufZero) bufTwo = 2048 := by decide
  simp only [stepTick, KalmanFilter.filter, KalmanFilter.q,
    KalmanFilter.r, stabilityOf, STABILITY_THRESHOLD, hr2]
  norm_num [min_def, max_def]
  exact ⟨fun h => absurd h (by decide), by decide⟩

/-- Evaluation of the third tick of exTicks: a zero raw score lets the filtered
motion decay to 727040/1261 and the stability rise to 1098548/11349, above 95. -/
theorem stepTick_ex3 : stepTick ⟨⟨145408/151, 71/302⟩, some bufTwo, "f1", some 0⟩
    ⟨480, bufTwo, "f3"⟩ =
    (⟨⟨727040/1261, 253/1261⟩, some bufTwo, "f1", some 0⟩, 1098548/11349) := by
  have hr3 : rawMotionScore (some bufTwo) bufTwo = 0 := by decide
  simp only [stepTick, KalmanFilter.filter, KalmanFilter.q,
    KalmanFilter.r, stabilityOf, STABILITY_THRESHOLD, hr3]
  norm_num [min_def, max_def]
  exact ⟨fun h => absurd h (by decide), by decide⟩

/-- Full evaluation of the stabilizer on exTicks: the attempt locks at the
480 ms tick and resolves with the first frame, with the stated trace. -/
theorem stabProcess_exTicks : stabProcess stabInit exTicks =
    ([(0, 100), (200, 643148/6795), (480, 1098548/11349)],
     some (Outcome.locked, "f1", 480)) := by
  simp only [exTicks, stabProcess, stepTick_ex1, stepTick_ex2, stepTick_ex3]
  norm_num [MAX_DURATION]

/-- Any resolution of the stabilizer happens at a processed tick whose
stability appears in the trace; the locked branch requires that tick's
stability to exceed 95 with more than 400 ms of elapsed attempt time, and the
timeout branch requires at least MAX_DURATION of elapsed time. -/
theorem stabProcess_resolution (ticks : List Tick) : ∀ (s : StabState) (o : Outcome)
    (f : String) (tl : ℕ), (stabProcess s ticks).2 = some (o, f, tl) →
    ∃ stab, (tl, stab) ∈ (stabProcess s ticks).1 ∧
      (o = Outcome.locked → 95 < stab ∧ 400 < tl) ∧
      (o = Outcome.timeout → MAX_DURATION ≤ tl) := by
  induction ticks with
  | nil => intro s o f tl h; simp [stabProcess] at h
  | cons t rest ih =>
    intro s o f tl h
    by_cases hc : 95 < (stepTick s t).2 ∧ 400 < t.time
    · simp only [stabProcess, if_pos hc] at h ⊢
      simp only [Option.some.injEq, Prod.mk.injEq] at h
      refine ⟨(stepTick s t).2, ?_, ?_, ?_⟩
      · simp [← h.2.2]
      · exact fun _ => ⟨hc.1, h.2.2 ▸ hc.2⟩
      · intro ho; rw [ho] at h; exact absurd h.1.symm (by simp)
    · by_cases ht : MAX_DURATION ≤ t.time
      · simp only [stabProcess, if_neg hc, if_pos ht] at h ⊢
        simp only [Option.some.injEq, Prod.mk.injEq] at h
        refine ⟨(stepTick s t).2, ?_, ?_, ?_⟩
        · simp [← h.2.2]
        · intro ho; rw [ho] at h; exact absurd h.1.symm (by simp)
        · exact fun _ => h.2.2 ▸ ht
      · simp only [stabProcess, if_neg hc, if_neg ht] at h ⊢
        obtain ⟨stab, hmem, hl, hto⟩ := ih (stepTick s t).1 o f tl h
        exact ⟨stab, List.mem_cons_of_mem _ hmem, hl, hto⟩

/-- Claim C1 counterexample: on exTicks the attempt resolves as locked at the
480 ms tick, yet the streak of ticks with stability above 95 began at that
same tick, so stability had been above the threshold for 0 ms of continuous
time, not the 400 ms settle duration the claim requires. -/
theorem stab_lock_no_dwell_cex :
    (stabProcess stabInit exTicks).2 = some (Outcome.locked, "f1", 480) ∧
    streakStartAux none (stabProcess stabInit exTicks).1 = some 480 ∧
    ¬ (400 ≤ 480 - 480) := by
  rw [stabProcess_exTicks]
  refine ⟨rfl, ?_, by omega⟩
  norm_num [streakStartAux]

/-- Claim C1 (amended): the locked outcome requires only that the tick's
stability exceeds 95 and that more than 400 ms have elapsed since the attempt
started -- not 400 ms of continuously above-threshold dwell; any other
resolution is the timeout at MAX_DURATION (3000 ms) of elapsed time. -/
theorem stab_lock_conditions (ticks : List Tick) (o : Outcome) (f : String) (tl : ℕ)
    (h : (stabProcess stabInit ticks).2 = some (o, f, tl)) :
    ∃ stab, (tl, stab) ∈ (stabProcess stabInit ticks).1 ∧
      (o = Outcome.locked → 95 < stab ∧ 400 < tl) ∧
      (o = Outcome.timeout → MAX_DURATION ≤ tl) :=
  stabProcess_resolution ticks stabInit o f tl h

/-- Unfolding equation of the retryGo loop body. -/
theorem retryGo_eq {E A : Type} (task : ℕ → Except E A) (maxRetries attempt : ℕ) :
    retryGo task maxRetries attempt =
      if attempt ≤ maxRetries then
        match task attempt with
        | Except.ok a => RetryResult.ok a (attempt + 1)
        | Except.error e =>
          if attempt = maxRetries then RetryResult.err e (attempt + 1)
          else retryGo task maxRetries (attempt + 1)
      else RetryResult.unexpected attempt := by
  rw [retryGo]
  by_cases h : attempt ≤ maxRetries
  · simp only [dif_pos h, if_pos h]
    cases task attempt with
    | ok a => rfl
    | error e =>
      by_cases h2 : attempt = maxRetries
      · simp [h2]
      · simp [h2]
  · simp [h]

/-- If the task fails on invocations attempt..n-1 and succeeds on invocation n,
with n within the budget, the loop returns the success value after invocation n. -/
theorem retryGo_ok_of {E A : Type} (task : ℕ → Except E A) (maxRetries n : ℕ) (v : A)
    (hfail : ∀ i < n, ∃ e, task i = Except.error e) (hsucc : task n = Except.ok v)
    (hn : n ≤ maxRetries) :
    ∀ k attempt, attempt + k = n → retryGo task maxRetries attempt = RetryResult.ok v (n + 1) := by
  intro k
  induction k with
  | zero =>
    intro attempt hatt
    simp only [Nat.add_zero] at hatt
    subst hatt
    rw [retryGo_eq, if_pos hn, hsucc]
  | succ k ih =>
    intro attempt hatt
    have hlt : attempt < n := by omega
    obtain ⟨e, he⟩ := hfail attempt hlt
    have hle : attempt ≤ maxRetries := by omega
    have hne : attempt ≠ maxRetries := by omega
    rw [retryGo_eq, if_pos hle, he]
    show (if attempt = maxRetries then RetryResult.err e (attempt + 1)
          else retryGo task maxRetries (attempt + 1)) = _
    rw [if_neg hne]
    exact ih (attempt + 1) (by omega)

/-- If the task fails on every invocation up to maxRetries (inclusive), the
loop rethrows the error of invocation maxRetries after maxRetries + 1 calls. -/
theorem retryGo_err_of {E A : Type} (task : ℕ → Except E A) (maxRetries n : ℕ)
    (hfail : ∀ i < n, ∃ e, task i = Except.error e) (hn : maxRetries < n) :
    ∀ k attempt, attempt + k = maxRetries →
    ∃ e, task maxRetries = Except.error e ∧
      retryGo task maxRetries attempt = RetryResult.err e (maxRetries + 1) := by
  intro k
  induction k with
  | zero =>
    intro attempt hatt
    simp only [Nat.add_zero] at hatt
    subst hatt
    obtain ⟨e, he⟩ := hfail attempt (by omega)
    refine ⟨e, he, ?_⟩
    rw [retryGo_eq, if_pos (le_refl _), he]
    show (if attempt = attempt then RetryResult.err e (attempt + 1)
          else retryGo task attempt (attempt + 1)) = _
    rw [if_pos rfl]
  | succ k ih =>
    intro attempt hatt
    obtain ⟨e, he⟩ := hfail attempt (by omega)
    have hle : attempt ≤ maxRetries := by omega
    have hne : attempt ≠ maxRetries := by omega
    have hstep : retryGo task maxRetries attempt = retryGo task maxRetries (attempt + 1) := by
      rw [retryGo_eq, if_pos hle, he]
      show (if attempt = maxRetries then RetryResult.err e (attempt + 1)
            else retryGo task maxRetries (attempt + 1)) = _
      rw [if_neg hne]
    obtain ⟨e2, he2, hrun⟩ := ih (attempt + 1) (by omega)
    exact ⟨e2, he2, by rw [hstep]; exact hrun⟩

/-- Claim C2: for a task failing on its first n invocations and succeeding on
invocation n, a budget of at least n retries makes retryTask return the
success value after exactly n + 1 invocations, while a smaller budget makes
it invoke the task exactly maxRetries + 1 times and rethrow the error of the
last invocation; the default budget is 2 retries with a fixed 1000 ms delay. -/
theorem retryTask_fail_then_succeed {E A : Type} (task : ℕ → Except E A) (n : ℕ) (v : A)
    (hfail : ∀ i < n, ∃ e, task i = Except.error e)
    (hsucc : task n = Except.ok v) (maxRetries : ℕ) :
    (n ≤ maxRetries → retryTask task maxRetries = RetryResult.ok v (n + 1)) ∧
    (maxRetries < n → ∃ e, task maxRetries = Except.error e ∧
        retryTask task maxRetries = RetryResult.err e (maxRetries + 1)) ∧
    retryTaskDefaultMaxRetries = 2 ∧ retryTaskDefaultDelay = 1000 := by
  refine ⟨?_, ?_, rfl, rfl⟩
  · intro hn
    exact retryGo_ok_of task maxRetries n v hfail hsucc hn n 0 (by omega)
  · intro hn
    exact retryGo_err_of task maxRetries n hfail hn maxRetries 0 (by omega)

/-- Concrete task for retry witnesses: rejects on invocation 0, resolves with
7 afterwards. -/
def wTask : ℕ → Except ℕ ℕ := fun i => if i = 0 then Except.error 3 else Except.ok 7

/-- Witness for claim C2 at a task failing once, with the default budget. -/
theorem retryTask_fail_then_succeed_witness :
    retryTask wTask 2 = RetryResult.ok 7 2 ∧ retryTask wTask 0 = RetryResult.err 3 1 := by
  constructor
  · exact (retryTask_fail_then_succeed wTask 1 7
      (fun i hi => ⟨3, by interval_cases i; rfl⟩) rfl 2).1 (by omega)
  · obtain ⟨e, he, hrun⟩ := (retryTask_fail_then_succeed wTask 1 7
      (fun i hi => ⟨3, by interval_cases i; rfl⟩) rfl 0).2.1 (by omega)
    have : e = 3 := by
      have := he
      simp [wTask] at this
      omega
    rw [← this]
    exact hrun

/-- Claim C10: retryTask always terminates with either a value produced by
some task invocation or the error thrown by the final invocation (the one
numbered calls - 1); the trailing fabricated "Unexpected retry failure" throw
is unreachable. -/
theorem retryTask_total {E A : Type} (task : ℕ → Except E A) (maxRetries : ℕ) :
    (∀ m, retryTask task maxRetries ≠ RetryResult.unexpected m) ∧
    ((∃ a calls, retryTask task maxRetries = RetryResult.ok a calls ∧
        1 ≤ calls ∧ calls ≤ maxRetries + 1 ∧ task (calls - 1) = Except.ok a) ∨
     (∃ e, retryTask task maxRetries = RetryResult.err e (maxRetries + 1) ∧
        task maxRetries = Except.error e)) := by
  have key : ∀ k attempt, maxRetries + 1 - attempt = k → attempt ≤ maxRetries →
      (∃ a calls, retryGo task maxRetries attempt = RetryResult.ok a calls ∧
          attempt + 1 ≤ calls ∧ calls ≤ maxRetries + 1 ∧ task (calls - 1) = Except.ok a) ∨
      (∃ e, retryGo task maxRetries attempt = RetryResult.err e (maxRetries + 1) ∧
          task maxRetries = Except.error e) := by
    intro k
    induction k with
    | zero => intro attempt hk hle; omega
    | succ k ih =>
      intro attempt hk hle
      cases htask : task attempt with
      | ok a =>
        have hstep : retryGo task maxRetries attempt = RetryResult.ok a (attempt + 1) := by
          rw [retryGo_eq, if_pos hle, htask]
        exact Or.inl ⟨a, attempt + 1, hstep, le_refl _, by omega, by simpa using htask⟩
      | error e =>
        have hstep : retryGo task maxRetries attempt =
            if attempt = maxRetries then RetryResult.err e (attempt + 1)
            else retryGo task maxRetries (attempt + 1) := by
          rw [retryGo_eq, if_pos hle, htask]
        by_cases heq : attempt = maxRetries
        · subst heq
          rw [hstep, if_pos rfl]
          exact Or.inr ⟨e, rfl, htask⟩
        · rw [hstep, if_neg heq]
          rcases ih (attempt + 1) (by omega) (by omega) with
            ⟨a, calls, hr, h1, h2, h3⟩ | ⟨e2, hr, h2⟩
          · exact Or.inl ⟨a, calls, hr, by omega, h2, h3⟩
          · exact Or.inr ⟨e2, hr, h2⟩
  have hmain := key (maxRetries + 1) 0 (by omega) (by omega)
  constructor
  · intro m hcontra
    rcases hmain with ⟨a, calls, hr, _, _, _⟩ | ⟨e, hr, _⟩ <;>
      rw [retryTask] at hcontra <;> rw [hr] at hcontra <;> exact absurd hcontra (by simp)
  · rcases hmain with ⟨a, calls, hr, h1, h2, h3⟩ | ⟨e, hr, h2⟩
    · exact Or.inl ⟨a, calls, hr, h1, h2, h3⟩
    · exact Or.inr ⟨e, hr, h2⟩

/-- After any processed tick with a non-empty full-resolution frame, bestFrame
is non-empty: the update fires whenever bestFrame is still empty. -/
theorem stepTick_bestFrame_ne (s : StabState) (t : Tick) (h : t.full ≠ "") :
    (stepTick s t).1.bestFrame ≠ "" := by
  simp only [stepTick]
  split
  · exact h
  next himp =>
    simp only [Bool.or_eq_true, beq_iff_eq, not_or] at himp
    exact himp.2

/-- The very first sample of an attempt is always recorded: starting from
stabInit, the tick's frame becomes bestFrame and its filtered motion becomes
the running minimum. -/
theorem stepTick_first_records (t : Tick) :
    (stepTick stabInit t).1.bestFrame = t.full ∧
    (stepTick stabInit t).1.minFilteredMotion =
      some (stabInit.kf.filter ((rawMotionScore stabInit.prevData t.frame : ℕ) : ℚ)).2 := by
  simp [stepTick, stabInit]

/-- If some tick reaches MAX_DURATION of elapsed time and every tick carries a
non-empty frame, the attempt resolves and the resolved frame is non-empty. -/
theorem stabProcess_resolves_nonempty (ticks : List Tick) : ∀ s : StabState,
    (∃ t ∈ ticks, MAX_DURATION ≤ t.time) → (∀ t ∈ ticks, t.full ≠ "") →
    ∃ o f tl, (stabProcess s ticks).2 = some (o, f, tl) ∧ f ≠ "" := by
  induction ticks with
  | nil => intro s h _; simp at h
  | cons t rest ih =>
    intro s h hfull
    have hfh : t.full ≠ "" := hfull t (List.mem_cons_self t rest)
    by_cases hc : 95 < (stepTick s t).2 ∧ 400 < t.time
    · refine ⟨Outcome.locked, (stepTick s t).1.bestFrame, t.time, ?_,
        stepTick_bestFrame_ne s t hfh⟩
      simp only [stabProcess]
      rw [if_pos hc]
    · by_cases ht : MAX_DURATION ≤ t.time
      · refine ⟨Outcome.timeout, (stepTick s t).1.bestFrame, t.time, ?_,
          stepTick_bestFrame_ne s t hfh⟩
        simp only [stabProcess]
        rw [if_neg hc, if_pos ht]
      · obtain ⟨t0, ht0, htime⟩ := h
        rcases List.mem_cons.mp ht0 with rfl | hmem
        · exact absurd htime ht
        · obtain ⟨o, f, tl, hr, hf⟩ := ih (stepTick s t).1 ⟨t0, hmem, htime⟩
            (fun u hu => hfull u (List.mem_cons_of_mem _ hu))
          refine ⟨o, f, tl, ?_, hf⟩
          simp only [stabProcess]
          rw [if_neg hc, if_neg ht]
          exact hr

/-- Claim C3: whenever at least one sample is processed (and real time makes
some tick reach MAX_DURATION), the stabilizer resolves with a candidate frame
drawn from the non-empty captured frames -- even if every sample shows
maximal motion -- because the first sample always becomes the running
minimum, and the timeout branch still resolves with the best candidate. -/
theorem stabilizer_nonempty_candidate (ticks : List Tick)
    (hterm : ∃ t ∈ ticks, MAX_DURATION ≤ t.time)
    (hfull : ∀ t ∈ ticks, t.full ≠ "") :
    (∃ o f tl, (stabProcess stabInit ticks).2 = some (o, f, tl) ∧ f ≠ "") ∧
    (∀ t : Tick, (stepTick stabInit t).1.bestFrame = t.full) :=
  ⟨stabProcess_resolves_nonempty ticks stabInit hterm hfull,
   fun t => (stepTick_first_records t).1⟩

/-- One-tick attempt used to witness claim C3: a single sample arriving at the
maximum attempt duration. -/
def wTicks : List Tick := [⟨3000, bufZero, "w1"⟩]

/-- Witness for claim C3 at the concrete input wTicks. -/
theorem stabilizer_nonempty_candidate_witness :
    (∃ t ∈ wTicks, MAX_DURATION ≤ t.time) ∧ (∀ t ∈ wTicks, t.full ≠ "") ∧
    ((∃ o f tl, (stabProcess stabInit wTicks).2 = some (o, f, tl) ∧ f ≠ "") ∧
     (∀ t : Tick, (stepTick stabInit t).1.bestFrame = t.full)) := by
  refine ⟨⟨⟨3000, bufZero, "w1"⟩, by simp [wTicks], by simp [MAX_DURATION]⟩, ?_, ?_⟩
  · intro t ht
    simp only [wTicks, List.mem_singleton] at ht
    subst ht
    simp
  · refine stabilizer_nonempty_candidate wTicks
      ⟨⟨3000, bufZero, "w1"⟩, by simp [wTicks], by simp [MAX_DURATION]⟩ ?_
    intro t ht
    simp only [wTicks, List.mem_singleton] at ht
    subst ht
    simp

/-- Claim C8: one filter(measurement) call performs exactly the recursion
p := p + q, k := p / (p + r), x := x + k * (measurement - x), p := (1 - k) * p,
returns the updated x, and the noises are the fixed q = 0.1 and r = 0.5. -/
theorem kalman_filter_recursion (s : KalmanFilter) (m : ℚ) :
    (s.filter m).1.x = s.x +
      ((s.p + KalmanFilter.q) / ((s.p + KalmanFilter.q) + KalmanFilter.r)) * (m - s.x) ∧
    (s.filter m).1.p =
      (1 - (s.p + KalmanFilter.q) / ((s.p + KalmanFilter.q) + KalmanFilter.r)) *
        (s.p + KalmanFilter.q) ∧
    (s.filter m).2 = (s.filter m).1.x ∧
    KalmanFilter.q = 1/10 ∧ KalmanFilter.r = 1/2 :=
  ⟨rfl, rfl, rfl, rfl, rfl⟩

/-- Claim C9: identical consecutive frames give a raw motion score of 0, the
first sample (no previous frame) gives 0, and feeding the filter a zero
measurement strictly decreases the estimate toward 0 whenever the current
estimate is positive (the covariance being positive, as it always is). -/
theorem motion_zero_filter_decreases :
    (∀ buf : ℕ → ℕ, rawMotionScore (some buf) buf = 0) ∧
    (∀ buf : ℕ → ℕ, rawMotionScore none buf = 0) ∧
    (∀ s : KalmanFilter, 0 < s.p → 0 < s.x →
      (s.filter 0).2 < s.x ∧ 0 < (s.filter 0).2) := by
  refine ⟨?_, fun _ => rfl, ?_⟩
  · intro buf
    simp only [rawMotionScore, blockDiff, sub_self, Int.natAbs_zero]
    decide
  · intro s hp hx
    simp only [KalmanFilter.filter, KalmanFilter.q, KalmanFilter.r]
    have hp1 : 0 < s.p + 1/10 := by linarith
    have hden : 0 < s.p + 1/10 + 1/2 := by linarith
    have hk0 : 0 < (s.p + 1/10) / (s.p + 1/10 + 1/2) := div_pos hp1 hden
    have hk1 : (s.p + 1/10) / (s.p + 1/10 + 1/2) < 1 := by
      rw [div_lt_one hden]
      linarith
    constructor
    · nlinarith [mul_pos hk0 hx]
    · nlinarith [mul_pos hx (sub_pos.mpr hk1)]

/-- Witness for claim C9 at the filter state x = 1, p = 1. -/
theorem motion_zero_filter_decreases_witness :
    (0:ℚ) < (⟨1, 1⟩ : KalmanFilter).p ∧ (0:ℚ) < (⟨1, 1⟩ : KalmanFilter).x ∧
    ((⟨1, 1⟩ : KalmanFilter).filter 0).2 < (⟨1, 1⟩ : KalmanFilter).x ∧
    0 < ((⟨1, 1⟩ : KalmanFilter).filter 0).2 := by
  have h := motion_zero_filter_decreases.2.2 ⟨1, 1⟩ (by norm_num) (by norm_num)
  exact ⟨by norm_num, by norm_num, h.1, h.2⟩

/-- Witness for claim C10 at the concrete task wTask with the default budget. -/
theorem retryTask_total_witness :
    retryTask wTask 2 ≠ RetryResult.unexpected 1 ∧
    ((∃ a calls, retryTask wTask 2 = RetryResult.ok a calls ∧
        1 ≤ calls ∧ calls ≤ 2 + 1 ∧ wTask (calls - 1) = Except.ok a) ∨
     (∃ e, retryTask wTask 2 = RetryResult.err e (2 + 1) ∧
        wTask 2 = Except.error e)) :=
  ⟨(retryTask_total wTask 2).1 1, (retryTask_total wTask 2).2⟩

/-- Witness for the amended C1 theorem at the concrete input exTicks. -/
theorem stab_lock_conditions_witness :
    (stabProcess stabInit exTicks).2 = some (Outcome.locked, "f1", 480) ∧
    ∃ stab, (480, stab) ∈ (stabProcess stabInit exTicks).1 ∧
      (Outcome.locked = Outcome.locked → 95 < stab ∧ 400 < 480) ∧
      (Outcome.locked = Outcome.timeout → MAX_DURATION ≤ 480) := by
  have hres : (stabProcess stabInit exTicks).2 = some (Outcome.locked, "f1", 480) := by
    rw [stabProcess_exTicks]
  exact ⟨hres, stab_lock_conditions exTicks Outcome.locked "f1" 480 hres⟩

/-! ## Playback scheduler (live-session onmessage handler, lines 600-628) -/

/-- One inbound audio chunk: the output clock reading (ctx.currentTime) when
it is scheduled and the decoded buffer duration in seconds. -/
structure Chunk where
  clock : ℚ
  duration : ℚ

/-- State of the playback pipeline: nextStartTime (the PlaybackCursor) and
the set of live sources, listed by identifier in insertion order. -/
structure AudioState where
  nextStartTime : ℚ
  sources : List ℕ
deriving DecidableEq

/-- The scheduling step of the onmessage handler on the cursor alone:
nextStartTime := max(nextStartTime, ctx.currentTime); the source starts at
that value; then nextStartTime increases by duration / playbackRate.
Returns (startTime, new cursor). -/
def scheduleChunk (rate cursor clock dur : ℚ) : ℚ × ℚ :=
  (max cursor clock, max cursor clock + dur / rate)

/-- One scheduled source as recorded for the proofs: its start time, its raw
duration and the cursor value after it was scheduled. -/
structure Sched where
  start : ℚ
  dur : ℚ
  cursorAfter : ℚ
deriving DecidableEq

/-- The scheduler run over a list of chunks with no interruption in between:
each chunk is scheduled by scheduleChunk against the current cursor. -/
def scheduleRun (rate : ℚ) : ℚ → List Chunk → List Sched
  | _, [] => []
  | cursor, ch :: rest =>
    ⟨(scheduleChunk rate cursor ch.clock ch.duration).1, ch.duration,
     (scheduleChunk rate cursor ch.clock ch.duration).2⟩ ::
    scheduleRun rate (scheduleChunk rate cursor ch.clock ch.duration).2 rest

/-- The full scheduling step of the onmessage handler including the
live-sources set: the new source id is added after start is scheduled.
Returns the new state and the scheduled start time. -/
def scheduleInbound (rate : ℚ) (s : AudioState) (ch : Chunk) (id : ℕ) : AudioState × ℚ :=
  (⟨(scheduleChunk rate s.nextStartTime ch.clock ch.duration).2, s.sources ++ [id]⟩,
   (scheduleChunk rate s.nextStartTime ch.clock ch.duration).1)

/-- The interruption branch of the onmessage handler: stop every live source,
clear the set, reset nextStartTime to 0.  Returns the new state and the list
of sources that were stopped. -/
def handleInterrupt (s : AudioState) : AudioState × List ℕ :=
  (⟨0, []⟩, s.sources)

/-- Claim C4: for chunks of non-negative duration and a positive playback
rate, every scheduled start time is at least the cursor the run began with,
the cursor after each chunk equals its start plus duration / rate, start
times are non-decreasing with each start at least the previous start plus the
previous duration / rate (no overlap), and the cursor is monotonically
non-decreasing across the run. -/
theorem scheduler_gapless (rate : ℚ) (hr : 0 < rate) (chunks : List Chunk)
    (hd : ∀ ch ∈ chunks, 0 ≤ ch.duration) (cursor : ℚ) :
    (∀ x ∈ scheduleRun rate cursor chunks,
        cursor ≤ x.start ∧ x.cursorAfter = x.start + x.dur / rate ∧
        0 ≤ x.dur ∧ cursor ≤ x.cursorAfter) ∧
    List.Chain' (fun a b => a.start + a.dur / rate ≤ b.start)
      (scheduleRun rate cursor chunks) ∧
    List.Chain' (fun a b => a.start ≤ b.start) (scheduleRun rate cursor chunks) ∧
    List.Chain' (fun a b => a.cursorAfter ≤ b.cursorAfter)
      (scheduleRun rate cursor chunks) := by
  induction chunks generalizing cursor with
  | nil => simp [scheduleRun]
  | cons ch rest ih =>
    have hdch : 0 ≤ ch.duration := hd ch (List.mem_cons_self ch rest)
    have hdrest : ∀ c ∈ rest, 0 ≤ c.duration :=
      fun c hc => hd c (List.mem_cons_of_mem _ hc)
    set s0 : ℚ := max cursor ch.clock with hs0
    have hstep : 0 ≤ ch.duration / rate := div_nonneg hdch (le_of_lt hr)
    have hcur : cursor ≤ s0 := le_max_left _ _
    have hcur2 : cursor ≤ s0 + ch.duration / rate := by linarith
    obtain ⟨hall, hchain, hmono, hcmono⟩ := ih hdrest (s0 + ch.duration / rate)
    refine ⟨?_, ?_, ?_, ?_⟩
    · intro x hx
      simp only [scheduleRun, scheduleChunk, List.mem_cons] at hx
      rcases hx with rfl | hx
      · exact ⟨hcur, rfl, hdch, hcur2⟩
      · obtain ⟨h1, h2, h3, h4⟩ := hall x hx
        exact ⟨le_trans hcur2 h1, h2, h3, le_trans hcur2 h4⟩
    · simp only [scheduleRun, scheduleChunk]
      refine List.chain'_cons'.mpr ⟨?_, hchain⟩
      intro y hy
      have hmem : y ∈ scheduleRun rate (s0 + ch.duration / rate) rest :=
        List.mem_of_mem_head? hy
      exact (hall y hmem).1
    · simp only [scheduleRun, scheduleChunk]
      refine List.chain'_cons'.mpr ⟨?_, hmono⟩
      intro y hy
      have hmem : y ∈ scheduleRun rate (s0 + ch.duration / rate) rest :=
        List.mem_of_mem_head? hy
      have := (hall y hmem).1
      linarith
    · simp only [scheduleRun, scheduleChunk]
      refine List.chain'_cons'.mpr ⟨?_, hcmono⟩
      intro y hy
      have hmem : y ∈ scheduleRun rate (s0 + ch.duration / rate) rest :=
        List.mem_of_mem_head? hy
      exact (hall y hmem).2.2.2

/-- Chunks used to witness the scheduler claims. -/
def wChunks : List Chunk := [⟨0, 1⟩, ⟨0, 2⟩]

/-- Witness for claim C4 at rate 1, initial cursor 0 and two chunks. -/
theorem scheduler_gapless_witness :
    (0:ℚ) < 1 ∧ (∀ ch ∈ wChunks, 0 ≤ ch.duration) ∧
    ((∀ x ∈ scheduleRun 1 0 wChunks,
        (0:ℚ) ≤ x.start ∧ x.cursorAfter = x.start + x.dur / 1 ∧
        0 ≤ x.dur ∧ (0:ℚ) ≤ x.cursorAfter) ∧
     List.Chain' (fun a b => a.start + a.dur / 1 ≤ b.start) (scheduleRun 1 0 wChunks) ∧
     List.Chain' (fun a b => a.start ≤ b.start) (scheduleRun 1 0 wChunks) ∧
     List.Chain' (fun a b => a.cursorAfter ≤ b.cursorAfter) (scheduleRun 1 0 wChunks)) := by
  have hd : ∀ ch ∈ wChunks, 0 ≤ ch.duration := by
    intro ch hch
    simp only [wChunks, List.mem_cons, List.mem_singleton] at hch
    rcases hch with rfl | rfl | h
    · norm_num
    · norm_num
    · simp at h
  exact ⟨by norm_num, hd, scheduler_gapless 1 (by norm_num) wChunks hd 0⟩

/-- Claim C5: processing an interruption stops exactly the previously live
sources, leaves the live set empty and the cursor at 0; a chunk arriving
afterwards (with a non-negative output clock) is scheduled at or after the
current clock, not at the stale pre-interruption cursor. -/
theorem interrupt_resets (s : AudioState) (rate : ℚ) (ch : Chunk) (id : ℕ)
    (hclock : 0 ≤ ch.clock) :
    (handleInterrupt s).1.sources = [] ∧
    (handleInterrupt s).1.nextStartTime = 0 ∧
    (handleInterrupt s).2 = s.sources ∧
    (scheduleInbound rate (handleInterrupt s).1 ch id).2 = ch.clock ∧
    ch.clock ≤ (scheduleInbound rate (handleInterrupt s).1 ch id).2 := by
  refine ⟨rfl, rfl, rfl, ?_, ?_⟩
  · simp only [scheduleInbound, scheduleChunk, handleInterrupt]
    exact max_eq_right hclock
  · simp only [scheduleInbound, scheduleChunk, handleInterrupt]
    exact le_max_right _ _

/-- Witness for claim C5 after three scheduled sources, with a chunk arriving
at clock 5. -/
theorem interrupt_resets_witness :
    (0:ℚ) ≤ (5:ℚ) ∧
    ((handleInterrupt ⟨7, [0, 1, 2]⟩).1.sources = [] ∧
     (handleInterrupt ⟨7, [0, 1, 2]⟩).1.nextStartTime = 0 ∧
     (handleInterrupt ⟨7, [0, 1, 2]⟩).2 = [0, 1, 2] ∧
     (scheduleInbound 1 (handleInterrupt ⟨7, [0, 1, 2]⟩).1 ⟨5, 1⟩ 3).2 = (5:ℚ) ∧
     (5:ℚ) ≤ (scheduleInbound 1 (handleInterrupt ⟨7, [0, 1, 2]⟩).1 ⟨5, 1⟩ 3).2) :=
  ⟨by norm_num, interrupt_resets ⟨7, [0, 1, 2]⟩ 1 ⟨5, 1⟩ 3 (by norm_num)⟩

/-! ## Turn accumulator (turnComplete branch of onmessage, lines 630-640,
and TranscriptionEntry from types.ts) -/

/-- Speaker tag of a transcript entry. -/
inductive Speaker where
  | user
  | model
deriving DecidableEq

/-- One entry of the real-time transcription log (types.ts). -/
structure TranscriptionEntry where
  text : String
  timestamp : ℕ
  speaker : Speaker
deriving DecidableEq

/-- The JavaScript String.prototype.trim used by the turn-complete filter:
strips whitespace characters from both ends of the string. -/
def jsTrim (s : String) : String :=
  ⟨((s.data.dropWhile Char.isWhitespace).reverse.dropWhile Char.isWhitespace).reverse⟩

/-- Component state touched by the transcription branches of onmessage: the
transcript log and the two accumulating buffers. -/
structure TurnState where
  transcript : List TranscriptionEntry
  currentInput : String
  currentOutput : String
deriving DecidableEq

/-- The transcription-relevant messages a live session can deliver. -/
inductive LiveMsg where
  | inputFrag (text : String)
  | outputFrag (text : String)
  | turnDone (now : ℕ)

/-- The transcription branches of the onmessage handler.  The callback object
is created once inside startSession and registered with the session for its
whole lifetime, so the plain reads of currentInput and currentOutput in the
turnComplete branch see the render-time bindings captured when the session
started -- modelled by the capturedInput and capturedOutput parameters --
while the functional updates setCurrentInput(prev => prev + text) and
setTranscript(prev => ...) read the live state, modelled by s. -/
def handleMsg (capturedInput capturedOutput : String) (s : TurnState) :
    LiveMsg → TurnState
  | LiveMsg.inputFrag f => ⟨s.transcript, s.currentInput ++ f, s.currentOutput⟩
  | LiveMsg.outputFrag f => ⟨s.transcript, s.currentInput, s.currentOutput ++ f⟩
  | LiveMsg.turnDone now =>
    ⟨(s.transcript ++ ([⟨capturedInput, now, Speaker.user⟩,
        ⟨capturedOutput, now, Speaker.model⟩] : List TranscriptionEntry)).filter
       (fun t => jsTrim t.text != ""),
     "", ""⟩

/-- A session's message stream processed in order.  At the render in which
startSession runs, both buffers are empty (initial state, or reset by
stopSession / clearHistory), so the closure captures "" for both. -/
def sessionRun (msgs : List LiveMsg) (s0 : TurnState) : TurnState :=
  msgs.foldl (handleMsg "" "") s0

/-- Claim C6 (code bug): in the claim's scenario the buffers do accumulate
"Hello" via the functional updates, but the turn-complete flush reads the
stale closure captures (both empty), constructs two blank entries that the
trim filter drops, and clears the buffers -- so no entry is ever appended
and the accumulated text is lost.  In general, every turn-complete under the
session-start captures merely re-filters the existing log and wipes the
buffers, never committing captured or produced text. -/
theorem turn_complete_stale_closure :
    (sessionRun [LiveMsg.inputFrag "He", LiveMsg.inputFrag "llo", LiveMsg.outputFrag ""]
      ⟨[], "", ""⟩).currentInput = "Hello" ∧
    sessionRun [LiveMsg.inputFrag "He", LiveMsg.inputFrag "llo", LiveMsg.outputFrag "",
      LiveMsg.turnDone 2] ⟨[], "", ""⟩ = ⟨[], "", ""⟩ ∧
    (∀ (s : TurnState) (now : ℕ),
      (handleMsg "" "" s (LiveMsg.turnDone now)).transcript =
        s.transcript.filter (fun t => jsTrim t.text != "") ∧
      (handleMsg "" "" s (LiveMsg.turnDone now)).currentInput = "" ∧
      (handleMsg "" "" s (LiveMsg.turnDone now)).currentOutput = "") := by
  refine ⟨by decide, by decide, ?_⟩
  intro s now
  refine ⟨?_, rfl, rfl⟩
  simp only [handleMsg, List.filter_append]
  have hblank : ([⟨"", now, Speaker.user⟩, ⟨"", now, Speaker.model⟩] :
      List TranscriptionEntry).filter (fun t => jsTrim t.text != "") = [] := by
    simp [List.filter, show (jsTrim "" != "") = false from rfl]
  rw [hblank, List.append_nil]

/-! ## Degraded-result labelling (captureAndAnalyze, lines 246-293) -/

/-- Request mode of a capture. -/
inductive AnalyzeMode where
  | read
  | summarize
  | explain
deriving DecidableEq

/-- Outcome of the retry-wrapped remote describe call: the text it resolved
with, or exhaustion of the retry budget (the rethrown failure caught by the
apiError handler). -/
inductive RemoteOutcome where
  | success (text : String)
  | exhausted
deriving DecidableEq

/-- Label prepended when the remote call fails online and the local engine is
used instead. -/
def offlineFallbackLabel : String := "(Offline Fallback) "

/-- Label prepended offline for a mode other than plain reading. -/
def offlineModeLabel : String := "Offline Mode: Only basic reading is available. Text found: "

/-- The displayed result text of captureAndAnalyze as a function of the mode,
the network status, the remote-call outcome, and the local OCR text. -/
def analyzeDisplay (mode : AnalyzeMode) (online : Bool) (remote : RemoteOutcome)
    (ocrText : String) : String :=
  if online then
    match remote with
    | RemoteOutcome.success t => t
    | RemoteOutcome.exhausted => offlineFallbackLabel ++ ocrText
  else
    match mode with
    | AnalyzeMode.read => ocrText
    | _ => offlineModeLabel ++ ocrText

/-- The result is produced by the local fallback engine exactly when the
device is offline or the wrapped remote call exhausted its retries. -/
def producedByFallback (online : Bool) (remote : RemoteOutcome) : Prop :=
  online = false ∨ remote = RemoteOutcome.exhausted

/-- Claim C7: for a summarize or explain request whose result comes from the
local fallback engine, the displayed text carries an explicit degraded or
basic-reading-only label rather than being the bare OCR text. -/
theorem fallback_relabelled (mode : AnalyzeMode) (online : Bool)
    (remote : RemoteOutcome) (ocrText : String)
    (hmode : mode = AnalyzeMode.summarize ∨ mode = AnalyzeMode.explain)
    (hfb : producedByFallback online remote) :
    (analyzeDisplay mode online remote ocrText = offlineFallbackLabel ++ ocrText ∨
     analyzeDisplay mode online remote ocrText = offlineModeLabel ++ ocrText) ∧
    analyzeDisplay mode online remote ocrText ≠ ocrText := by
  have hlab : ∀ lab : String, lab ≠ "" → lab ++ ocrText ≠ ocrText := by
    intro lab hne heq
    have hd : lab.data ++ ocrText.data = ocrText.data := congrArg String.data heq
    have hlen := congrArg List.length hd
    rw [List.length_append] at hlen
    have hz : lab.data = [] := List.length_eq_zero.mp (by omega)
    apply hne
    cases lab with
    | mk d => rw [show d = [] from hz]
  cases online with
  | true =>
    have hrem : remote = RemoteOutcome.exhausted := by
      rcases hfb with h | h
      · exact absurd h (by simp)
      · exact h
    subst hrem
    exact ⟨Or.inl rfl, hlab offlineFallbackLabel (by decide)⟩
  | false =>
    rcases hmode with rfl | rfl
    · exact ⟨Or.inr rfl, hlab offlineModeLabel (by decide)⟩
    · exact ⟨Or.inr rfl, hlab offlineModeLabel (by decide)⟩

/-- Witness for claim C7: an offline summarize request over OCR text "abc". -/
theorem fallback_relabelled_witness :
    producedByFallback false RemoteOutcome.exhausted ∧
    ((analyzeDisplay AnalyzeMode.summarize false RemoteOutcome.exhausted "abc" =
        offlineFallbackLabel ++ "abc" ∨
      analyzeDisplay AnalyzeMode.summarize false RemoteOutcome.exhausted "abc" =
        offlineModeLabel ++ "abc") ∧
     analyzeDisplay AnalyzeMode.summarize false RemoteOutcome.exhausted "abc" ≠ "abc") :=
  ⟨Or.inl rfl, fallback_relabelled AnalyzeMode.summarize false RemoteOutcome.exhausted "abc"
    (Or.inl rfl) (Or.inl rfl)⟩

end AccessAI
